import Mathlib

/-!
Shallow embedding of the importer/exporter reconciliation engine of the
elAPI_Plugins repository (src/src/services/importers/base_importer.py,
src/src/services/importers/resources_importer.py,
src/src/services/importers/experiments_importer.py, src/src/utils/common.py),
together with theorems settling the behavioural claims about it.

Strings are modelled as Lean `String`; the Python string operations used by
the source (`str.lower`, `str.replace` with one-character arguments,
`str.split` with a one-character separator, `str.strip`, `in`) are
implemented below as structural recursions over the character list, following
Python's semantics restricted to ASCII case mapping (the source's
`canonicalize` relies on `str.lower`, which agrees with the ASCII mapping on
all inputs exercised here).  Missing cells (pandas `NaN` / `None`) are
modelled as `Option.none`; JSON values are modelled by the inductive `Json`.
-/

namespace ElapiPlugins

/-- Python `str.lower` on a single character, restricted to the ASCII range:
characters `A`..`Z` (code points 65..90) are shifted by 32, everything else is
unchanged. -/
def pyLowerChar (c : Char) : Char :=
  if 65 ≤ c.toNat ∧ c.toNat ≤ 90 then Char.ofNat (c.toNat + 32) else c

/-- Python `str.lower` (ASCII fragment), mapped over the characters. -/
def pyLower (s : String) : String :=
  String.mk (s.data.map pyLowerChar)

/-- Python considers these six ASCII characters whitespace for `str.strip`. -/
def pyIsSpace (c : Char) : Bool :=
  c = ' ' || c = '\t' || c = '\n' || c = '\r' || c = '\x0b' || c = '\x0c'

/-- Python `str.strip` with no argument: drop whitespace from both ends. -/
def pyStrip (s : String) : String :=
  String.mk (((s.data.dropWhile pyIsSpace).reverse.dropWhile pyIsSpace).reverse)

/-- Python `str.replace old new` where both arguments are single characters:
every occurrence of `old` becomes `new`. -/
def pyReplaceChar (s : String) (old new : Char) : String :=
  String.mk (s.data.map (fun c => if c = old then new else c))

/-- Python `str.replace old ""` where `old` is a single character: every
occurrence of `old` is removed. -/
def pyDropChar (s : String) (old : Char) : String :=
  String.mk (s.data.filter (fun c => c ≠ old))

/-- Splitting a character list on a separator character, keeping empty
chunks, exactly like Python `str.split` with a one-character separator. -/
def pySplitCharList (d : Char) : List Char → List (List Char)
  | [] => [[]]
  | c :: t =>
    let rest := pySplitCharList d t
    if c = d then [] :: rest
    else
      match rest with
      | [] => [[c]]
      | h :: r => (c :: h) :: r

/-- Python `s.split d` for a one-character separator `d`. -/
def pySplit (s : String) (d : Char) : List String :=
  (pySplitCharList d s.data).map String.mk

/-- Python `c in s` for a single character `c`. -/
def pyContainsChar (s : String) (c : Char) : Bool :=
  s.data.contains c

/-- Boolean prefix test on character lists. -/
def listPrefixB : List Char → List Char → Bool
  | [], _ => true
  | _ :: _, [] => false
  | a :: as, b :: bs => a = b && listPrefixB as bs

/-- Boolean contiguous-sublist test on character lists. -/
def listInfixB (needle : List Char) : List Char → Bool
  | [] => needle.isEmpty
  | c :: t => listPrefixB needle (c :: t) || listInfixB needle t

/-- Python `needle in hay` for strings: contiguous substring containment. -/
def pyInStr (needle hay : String) : Bool :=
  listInfixB needle.data hay.data

/-- The non-breaking space character normalised away by the importers. -/
def nbsp : Char := '\u00A0'

/-- Source function `canonicalize` (src/src/utils/common.py, identically in
src/src/utils/content_extraction.py):
`name.lower().replace(" ", "").replace("-", "_")`. -/
def canonicalize (name : String) : String :=
  pyReplaceChar (pyDropChar (pyLower name) ' ') '-' '_'

/-- Python dict lookup on an insertion-ordered association list. -/
def dictLookup (l : List (String × α)) (k : String) : Option α :=
  (l.find? (fun kv => kv.1 = k)).map (fun kv => kv.2)

/-- Python dict assignment `d[k] = v` on an insertion-ordered association
list: an existing key keeps its position and gets the new value, a new key is
appended at the end. -/
def dictInsert (l : List (String × α)) (k : String) (v : α) : List (String × α) :=
  match l with
  | [] => [(k, v)]
  | (k0, v0) :: t => if k0 = k then (k0, v) :: t else (k0, v0) :: dictInsert t k v

/-- Python `d.pop(k)` (ignoring the returned value): remove the entry. -/
def dictRemove (l : List (String × α)) (k : String) : List (String × α) :=
  l.filter (fun kv => kv.1 ≠ k)

/-- Key list of an insertion-ordered association list. -/
def dictKeys (l : List (String × α)) : List String :=
  l.map (fun kv => kv.1)

/-- Helper used throughout: the characters of `canonicalize` as a list
transformation. -/
def canonCharList (l : List Char) : List Char :=
  ((l.map pyLowerChar).filter (fun c => c ≠ ' ')).map
    (fun c => if c = '-' then '_' else c)

theorem canonicalize_eq_canonCharList (s : String) :
    canonicalize s = String.mk (canonCharList s.data) := rfl

theorem char_toNat_ofNat {n : Nat} (h : n < 55296) : (Char.ofNat n).toNat = n := by
  unfold Char.ofNat
  rw [dif_pos (Or.inl h)]
  unfold Char.ofNatAux
  simp [Char.toNat, UInt32.toNat, UInt32.ofNat', BitVec.toNat_ofNatLt]

theorem pyLowerChar_idem (c : Char) : pyLowerChar (pyLowerChar c) = pyLowerChar c := by
  by_cases h : 65 ≤ c.toNat ∧ c.toNat ≤ 90
  · have h1 : pyLowerChar c = Char.ofNat (c.toNat + 32) := by
      unfold pyLowerChar; rw [if_pos h]
    have ht : (Char.ofNat (c.toNat + 32)).toNat = c.toNat + 32 :=
      char_toNat_ofNat (by omega)
    rw [h1]
    unfold pyLowerChar
    rw [if_neg (by rw [ht]; omega)]
  · have h1 : pyLowerChar c = c := by unfold pyLowerChar; rw [if_neg h]
    rw [h1, h1]

theorem mem_canonCharList_fix {l : List Char} {z : Char} (hz : z ∈ canonCharList l) :
    pyLowerChar z = z ∧ z ≠ ' ' ∧ (if z = '-' then '_' else z) = z := by
  unfold canonCharList at hz
  obtain ⟨y, hy, hgz⟩ := List.mem_map.mp hz
  have hyf := List.mem_filter.mp hy
  obtain ⟨c, _, hfc⟩ := List.mem_map.mp hyf.1
  have hysp : y ≠ ' ' := by simpa using hyf.2
  by_cases hd : y = '-'
  · rw [hd] at hgz
    simp only [if_pos rfl] at hgz
    subst hgz
    refine ⟨by decide, by decide, by decide⟩
  · rw [if_neg hd] at hgz
    subst hgz
    refine ⟨?_, hysp, by rw [if_neg hd]⟩
    rw [← hfc, pyLowerChar_idem]

theorem canonCharList_idem (l : List Char) :
    canonCharList (canonCharList l) = canonCharList l := by
  have h1 : (canonCharList l).map pyLowerChar = canonCharList l := by
    have h := List.map_congr_left
      (fun z (hz : z ∈ canonCharList l) => (mem_canonCharList_fix hz).1)
    rw [show (fun z => z) = @id Char from rfl] at h
    rw [h, List.map_id]
  have h2 : (canonCharList l).filter (fun c => c ≠ ' ') = canonCharList l := by
    rw [List.filter_eq_self]
    intro z hz
    simp [(mem_canonCharList_fix hz).2.1]
  have h3 : (canonCharList l).map (fun c => if c = '-' then '_' else c) = canonCharList l := by
    have h := List.map_congr_left
      (fun z (hz : z ∈ canonCharList l) => (mem_canonCharList_fix hz).2.2)
    rw [show (fun z => z) = @id Char from rfl] at h
    rw [h, List.map_id]
  calc canonCharList (canonCharList l)
      = (((canonCharList l).map pyLowerChar).filter (fun c => c ≠ ' ')).map
          (fun c => if c = '-' then '_' else c) := rfl
    _ = canonCharList l := by rw [h1, h2, h3]

theorem canonicalize_idem (x : String) :
    canonicalize (canonicalize x) = canonicalize x := by
  rw [canonicalize_eq_canonCharList, canonicalize_eq_canonCharList]
  show String.mk (canonCharList (canonCharList x.data)) = _
  rw [canonCharList_idem]

/-- JSON values, the shape of ElabFTW record metadata.  Numbers are modelled
as integers (the metadata fields exercised by the importers carry strings,
booleans and nested objects). -/
inductive Json where
  | null
  | bool (b : Bool)
  | num (n : Int)
  | str (s : String)
  | arr (items : List Json)
  | obj (entries : List (String × Json))

/-- Python truthiness of a JSON value: `None`, `False`, `0`, `""`, `[]` and
an empty mapping are falsy, everything else truthy. -/
def pyTruthy : Json → Bool
  | .null => false
  | .bool b => b
  | .num n => n ≠ 0
  | .str s => s ≠ ""
  | .arr items => !items.isEmpty
  | .obj entries => !entries.isEmpty

/-- Entries of a JSON object; non-objects give the empty entry list. -/
def jsonObjEntries : Json → List (String × Json)
  | .obj entries => entries
  | _ => []

/-- Two-character lowercase hex rendering of a codepoint below 256. -/
def hexDigit (n : Nat) : Char :=
  if n < 10 then Char.ofNat (48 + n) else Char.ofNat (87 + n)

/-- JSON string escaping as performed by `json.dumps(..., ensure_ascii=False)`:
quote, backslash and control characters are escaped, everything else is kept. -/
def escapeJsonChar (c : Char) : String :=
  if c = '"' then "\\\"" else
  if c = '\\' then "\\\\" else
  if c = '\n' then "\\n" else
  if c = '\t' then "\\t" else
  if c = '\r' then "\\r" else
  if c = '\x08' then "\\b" else
  if c = '\x0c' then "\\f" else
  if c.toNat < 32 then
    String.mk ['\\', 'u', '0', '0', hexDigit (c.toNat / 16), hexDigit (c.toNat % 16)]
  else String.mk [c]

/-- JSON string escaping over a whole string. -/
def escapeJson (s : String) : String :=
  String.join (s.data.map escapeJsonChar)

mutual

/-- Compact JSON serialisation mirroring
`json.dumps(..., ensure_ascii=False, separators=(",", ":"))`. -/
def renderJson : Json → String
  | .null => "null"
  | .bool true => "true"
  | .bool false => "false"
  | .num n => toString n
  | .str s => "\"" ++ escapeJson s ++ "\""
  | .arr items => "[" ++ renderJsonItems items ++ "]"
  | .obj entries => "\x7b" ++ renderJsonEntries entries ++ "\x7d"

/-- Comma-separated rendering of array items. -/
def renderJsonItems : List Json → String
  | [] => ""
  | [x] => renderJson x
  | x :: y :: t => renderJson x ++ "," ++ renderJsonItems (y :: t)

/-- Comma-separated rendering of object entries. -/
def renderJsonEntries : List (String × Json) → String
  | [] => ""
  | [kv] => "\"" ++ escapeJson kv.1 ++ "\":" ++ renderJson kv.2
  | kv :: kv2 :: t =>
    "\"" ++ escapeJson kv.1 ++ "\":" ++ renderJson kv.2 ++ "," ++
      renderJsonEntries (kv2 :: t)

end

example : renderJson (Json.obj [("a", Json.arr [Json.str "x", Json.null])]) =
    "\x7b\"a\":[\"x\",null]\x7d" := by decide

/-- Coerced value produced by `ResourcesImporter._coerce_for_field`: a plain
string or a list of option strings. -/
inductive CoercedVal where
  | s (v : String)
  | l (vs : List String)
deriving DecidableEq

/-- Coerced values as they are written into the metadata JSON. -/
def coercedToJson : CoercedVal → Json
  | .s v => .str v
  | .l vs => .arr (vs.map Json.str)

/-- A parsed extra-field definition, as read by `_coerce_for_field` off the
definition mapping: `(defn or \x7b\x7d).get("type")`,
`bool((defn or \x7b\x7d).get("allow_multi_values"))` and
`(defn or \x7b\x7d).get("options") or []`. -/
structure FieldDef where
  ftype : Option String
  allow_multi_values : Bool
  options : List String
deriving DecidableEq

/-- First-occurrence deduplication, the deterministic model of building the
Python set `\x7bstr(o).strip() for o in options\x7d` (CPython iterates small
string sets in insertion order for the inputs exercised here; no option list
in the claims contains duplicates, so the choice is immaterial). -/
def dedupFirstAux (seen : List String) : List String → List String
  | [] => []
  | x :: t => if seen.contains x then dedupFirstAux seen t
      else x :: dedupFirstAux (x :: seen) t

/-- First-occurrence deduplication of a string list. -/
def dedupFirst (l : List String) : List String := dedupFirstAux [] l

/-- Lookup in the dict comprehension `\x7bo.lower(): o for o in options_set\x7d`:
a later entry overwrites an earlier one, so the lookup finds the last option
whose lowering matches. -/
def lowerLookup (options_set : List String) (v : String) : Option String :=
  options_set.reverse.find? (fun o => pyLower o = pyLower v)

/-- Source function `ResourcesImporter._split_multi`
(src/src/services/importers/resources_importer.py lines 290-298): replace
non-breaking spaces, turn `;` into `,`, split on `,`, strip each chunk and
drop empties. -/
def split_multi (raw : String) : List String :=
  let raw2 := pyReplaceChar raw nbsp ' '
  ((pySplit (pyReplaceChar raw2 ';' ',') ',').map pyStrip).filter (fun s => s ≠ "")

/-- Source function `ResourcesImporter._coerce_for_field`
(src/src/services/importers/resources_importer.py lines 300-329).  For a
`select` definition the raw value is split; with `allow_multi_values` the
exact matches are collected, and only when there is no exact match at all a
case-insensitive pass collects matches deduplicated in first-seen order; for
a single-valued select the first exact match wins, then the first
case-insensitive match, else `none`.  Any other type passes the raw string
through. -/
def coerce_for_field (defn : FieldDef) (raw : String) : Option CoercedVal :=
  let options_set := dedupFirst (defn.options.map pyStrip)
  if defn.ftype = some "select" then
    let vals := split_multi raw
    if defn.allow_multi_values then
      let picked := vals.filter (fun v => options_set.contains v)
      if picked.isEmpty && !vals.isEmpty then
        some (.l (vals.foldl (fun acc v =>
          match lowerLookup options_set v with
          | some m => if acc.contains m then acc else acc ++ [m]
          | none => acc) []))
      else some (.l picked)
    else
      match vals.find? (fun v => options_set.contains v) with
      | some v => some (.s v)
      | none =>
        match vals.findSome? (fun v => lowerLookup options_set v) with
        | some m => some (.s m)
        | none => none
  else some (.s raw)

example : coerce_for_field ⟨some "select", true, ["Red", "Blue"]⟩ "red, BLUE, red" =
    some (.l ["Red", "Blue"]) := by decide

example : coerce_for_field ⟨some "select", false, ["Red", "Blue"]⟩ "green" = none := by
  decide

example : coerce_for_field ⟨some "select", true, ["A", "B"]⟩ "a, B" =
    some (.l ["B"]) := by decide

/-- A CSV row: column name paired with the cell value, `none` for a missing
value (pandas `NaN`/`None`).  Cells carry strings, the type a CSV parse
produces. -/
structure Row where
  cells : List (String × Option String)

/-- Source constant `ResourcesImporter._KNOWN_POST_FIELDS`. -/
def KNOWN_POST_FIELDS : List String := ["title", "tags", "category", "template", "body"]

/-- Source function `ResourcesImporter._collect_csv_extra_fields`
(src/src/services/importers/resources_importer.py lines 268-288): canonical
key to stripped value for every cell whose canonical name is not a known
field or excluded column and whose value is present and non-blank. -/
def collect_csv_extra_fields (row : Row) (known_columns : List String) :
    List (String × String) :=
  let known_canon := KNOWN_POST_FIELDS.map canonicalize ++ known_columns.map canonicalize
  row.cells.foldl (fun extras cv =>
    let ckey := canonicalize cv.1
    if known_canon.contains ckey then extras
    else
      match cv.2 with
      | none => extras
      | some v =>
        let sval := pyStrip (pyReplaceChar v nbsp ' ')
        if sval = "" then extras else dictInsert extras ckey sval) []

/-- Python `str(o)` on the JSON scalars that occur as `select` options. -/
def jsonOptionToString : Json → String
  | .str s => s
  | .bool true => "True"
  | .bool false => "False"
  | .null => "None"
  | .num n => toString n
  | j => renderJson j

/-- Reading a `FieldDef` off a definition mapping, following the dictionary
accesses of `_coerce_for_field`: a missing or non-string `type` never equals
`"select"`, `allow_multi_values` is Python truthiness, and a falsy or
non-array `options` gives no options. -/
def parseFieldDef (defn : List (String × Json)) : FieldDef where
  ftype := match dictLookup defn "type" with
    | some (.str s) => some s
    | _ => none
  allow_multi_values := match dictLookup defn "allow_multi_values" with
    | some j => pyTruthy j
    | none => false
  options := match dictLookup defn "options" with
    | some j =>
      if pyTruthy j then
        match j with
        | .arr items => items.map jsonOptionToString
        | _ => []
      else []
    | none => []

/-- The `metadata.setdefault("extra_fields", \x7b\x7d)` step: insert an empty
mapping under `extra_fields` if the key is absent. -/
def withExtraFieldsKey (metadata0 : List (String × Json)) : List (String × Json) :=
  if (dictLookup metadata0 "extra_fields").isSome then metadata0
  else dictInsert metadata0 "extra_fields" (Json.obj [])

/-- The extra-field definitions of a metadata object, as the entry list of
`metadata["extra_fields"]` after the `setdefault` (a non-object value there
is treated as having no entries; the source would fail on one). -/
def efEntriesOf (metadata0 : List (String × Json)) : List (String × Json) :=
  jsonObjEntries ((dictLookup (withExtraFieldsKey metadata0) "extra_fields").getD (Json.obj []))

/-- One step of building the canonical-key index over existing definitions
(`post_extra_fields_from_row` lines 350-354): keep an already-seen canonical
key, otherwise record the original key under it. -/
def defsByCanonStep (m : List (String × String)) (kv : String × Json) :
    List (String × String) :=
  let c := canonicalize kv.1
  if (dictLookup m c).isSome then m else dictInsert m c kv.1

/-- Canonical key to original key over the existing extra-field definitions,
first occurrence winning (`post_extra_fields_from_row` lines 350-354). -/
def defsByCanon (ef : List (String × Json)) : List (String × String) :=
  ef.foldl defsByCanonStep []

/-- One iteration of the update loop of `post_extra_fields_from_row`
(lines 359-378): skip keys with no matching definition, coerce, skip a `none`
coercion, write the value into the slot, and record the change. -/
def postExtraStep (defs : List (String × String))
    (st : List (String × Json) × List (String × Json)) (kv : String × String) :
    List (String × Json) × List (String × Json) :=
  match dictLookup defs kv.1 with
  | none => st
  | some real_key =>
    let defn := match dictLookup st.1 real_key with
      | some (.obj entries) => entries
      | _ => []
    match coerce_for_field (parseFieldDef defn) kv.2 with
    | none => st
    | some coerced =>
      let cj := coercedToJson coerced
      let ef2 := match dictLookup st.1 real_key with
        | some (.obj slotEntries) =>
          dictInsert st.1 real_key (Json.obj (dictInsert slotEntries "value" cj))
        | _ => dictInsert st.1 real_key (Json.obj [("value", cj)])
      (ef2, dictInsert st.2 real_key cj)

/-- Result of `ResourcesImporter.post_extra_fields_from_row`: the mutated
metadata object, the mutated `extra_fields` entries, the `changed` mapping,
and the PATCH payload (`none` when no PATCH is issued). -/
structure PostExtraResult where
  metadata : List (String × Json)
  extra_fields : List (String × Json)
  changed : List (String × Json)
  patch : Option (List (String × Json))

/-- Source function `ResourcesImporter.post_extra_fields_from_row`
(src/src/services/importers/resources_importer.py lines 331-397), taking the
already-decoded metadata object of the existing record (the source fetches
the record and JSON-decodes a string-valued `metadata` entry before this
logic runs).  CSV extras are intersected with the existing definitions,
coerced, written back, and when anything changed the full mutated metadata is
serialised to a JSON string for the PATCH body. -/
def post_extra_fields_from_row (metadata0 : List (String × Json)) (row : Row)
    (known_columns : List String) : PostExtraResult :=
  let metadata1 := withExtraFieldsKey metadata0
  let ef0 := efEntriesOf metadata0
  let defs := defsByCanon ef0
  let csv_extras := collect_csv_extra_fields row known_columns
  let st := csv_extras.foldl (postExtraStep defs) (ef0, [])
  let metadataFinal := dictInsert metadata1 "extra_fields" (Json.obj st.1)
  { metadata := metadataFinal
    extra_fields := st.1
    changed := st.2
    patch :=
      if st.2.isEmpty then none
      else some [("metadata", Json.str (renderJson (Json.obj metadataFinal)))] }

/-- Truthy dictionary access `field.get(k)` followed by an `or` chain test:
the value when present and truthy, otherwise `none`. -/
def truthyGet (entries : List (String × Json)) (k : String) : Option Json :=
  match dictLookup entries k with
  | some v => if pyTruthy v then some v else none
  | none => none

/-- Runtime errors raised by the embedded Python code. -/
inductive PyError where
  | nameError
  | attributeError
deriving DecidableEq

/-- The bare name `canonicalize` referenced by base_importer.py (lines 278,
435 and 459) is neither defined nor imported in that module — only
`canonicalize_field` is bound there — so evaluating any call through it
raises `NameError`, whatever the argument. -/
def base_canonicalize (x : α) : Except PyError String :=
  let _ := x
  .error .nameError

/-- The field loop of `BaseImporter.fetch_extra_fields_mapping`
(src/src/services/importers/base_importer.py lines 428-435): non-dict
entries and dict entries with no truthy `title`/`slug`/`name` are skipped;
for a titled dict the source evaluates `canonicalize(title)` through the
undefined bare name, raising `NameError`.  The insertion in the `.ok` branch
is the assignment the source text would perform. -/
def fetch_extra_fields_fold :
    List Json → List (String × List (String × Json)) →
    Except PyError (List (String × List (String × Json)))
  | [], m => .ok m
  | f :: t, m =>
    match f with
    | .obj fe =>
      match ((truthyGet fe "title").orElse (fun _ =>
          (truthyGet fe "slug").orElse (fun _ => truthyGet fe "name"))) with
      | some titleJ =>
        match base_canonicalize titleJ with
        | .error e => .error e
        | .ok ck => fetch_extra_fields_fold t (dictInsert m ck fe)
      | none => fetch_extra_fields_fold t m
    | _ => fetch_extra_fields_fold t m

/-- Source function `BaseImporter.fetch_extra_fields_mapping`
(src/src/services/importers/base_importer.py lines 418-436): map the
canonicalised title (falling back through `slug` and `name`, Python `or`
semantics) of every dict in `metadata_decoded.extra_fields` to that dict; a
non-list `extra_fields` yields the empty mapping.  Because the module-level
name `canonicalize` is undefined, the call raises `NameError` on the first
titled field, so the function can only ever return the empty mapping or
raise. -/
def fetch_extra_fields_mapping (elab_json : List (String × Json)) :
    Except PyError (List (String × List (String × Json))) :=
  let metadata_decoded := jsonObjEntries ((dictLookup elab_json "metadata_decoded").getD (Json.obj []))
  match (dictLookup metadata_decoded "extra_fields").getD (Json.arr []) with
  | .arr fields => fetch_extra_fields_fold fields []
  | _ => .ok []

/-- The column loop of `BaseImporter.update_extra_fields_from_row`
(src/src/services/importers/base_importer.py lines 458-471).  Each iteration
first evaluates `canonicalize(column)` through the undefined bare name,
raising `NameError`; the rest of the body, written out as the source has it,
can only run for a row with no columns at all (vacuously). -/
def update_columns_loop (known_columns : List String) :
    List (String × Option String) → List (String × List (String × Json)) →
    Except PyError (List (String × List (String × Json)))
  | [], m => .ok m
  | cv :: t, m =>
    match base_canonicalize cv.1 with
    | .error e => .error e
    | .ok canon_col =>
      let m2 :=
        if (dictLookup m canon_col).isSome && !known_columns.contains canon_col then
          match dictLookup m canon_col with
          | some fe =>
            let val_str := match cv.2 with
              | none => ""
              | some v => v
            dictInsert m canon_col (dictInsert fe "value" (Json.str val_str))
          | none => m
        else m
      update_columns_loop known_columns t m2

/-- Source function `BaseImporter.update_extra_fields_from_row`
(src/src/services/importers/base_importer.py lines 438-483), with `existing`
the JSON object fetched by `get_existing_json` (an empty object on fetch
failure).  Returns `.ok none` on the early returns (empty record, no
extra-field definitions), `.error` when a `NameError` propagates out of
`fetch_extra_fields_mapping` or the column loop, and `.ok (some payload)` in
the only case where the PATCH line is reached. -/
def update_extra_fields_from_row (existing : List (String × Json)) (row : Row)
    (known_columns : List String) : Except PyError (Option (List (String × Json))) :=
  if existing.isEmpty then .ok none
  else
    match fetch_extra_fields_mapping existing with
    | .error e => .error e
    | .ok extra_map =>
      if extra_map.isEmpty then .ok none
      else
        match update_columns_loop known_columns row.cells extra_map with
        | .error e => .error e
        | .ok extra_map2 =>
          .ok (some [("metadata", Json.obj [("extra_fields",
            Json.arr (extra_map2.map (fun kv => Json.obj kv.2)))])])

/-- The column state of an importer: `cols_lower` maps lower-cased column
names to originals, `cols_canon` maps canonical names to originals. -/
structure Importer where
  cols_lower : List (String × String)
  cols_canon : List (String × String)

/-- Source function `_find_col_like` (identical in
src/src/services/importers/base_importer.py lines 85-90 and
src/src/services/importers/resources_importer.py lines 105-110): the first
original column, in iteration order, whose canonical key contains the
canonicalised target as a substring. -/
def find_col_like (imp : Importer) (target : String) : Option String :=
  let key := canonicalize target
  ((imp.cols_canon.find? (fun kv => pyInStr key kv.1)).map (fun kv => kv.2))

/-- The canonical-key column index built by `_build_column_indexes`
(src/src/services/importers/base_importer.py lines 58-83): first original
wins on a duplicate canonical key (the collision is only logged). -/
def build_canon_map (columns : List String) : List (String × String) :=
  columns.foldl (fun m orig =>
    let ck := canonicalize orig
    if (dictLookup m ck).isSome then m else dictInsert m ck orig) []

/-- The delimiter loop of `BaseImporter.get_tags` (lines 388-392): the first
delimiter of the candidate list contained in the value. -/
def findFirstDelim : List Char → String → Option Char
  | [], _ => none
  | d :: ds, val => if pyContainsChar val d then some d else findFirstDelim ds val

/-- The string branch of `BaseImporter.get_tags` (lines 386-394): split on
the first delimiter found among `;`, `,`, `|`, else keep the whole string;
strip parts and drop blanks. -/
def parse_tags_value (val : String) : List String :=
  let parts := match findFirstDelim [';', ',', '|'] val with
    | some d => pySplit val d
    | none => [val]
  (parts.map pyStrip).filter (fun p => p ≠ "")

/-- Source function `BaseImporter.get_tags`
(src/src/services/importers/base_importer.py lines 366-398) on string-valued
cells: empty when the tags column is unresolved, the cell is missing, or
every part is blank. -/
def get_tags (imp : Importer) (row : Row) : List String :=
  match dictLookup imp.cols_lower "tags" with
  | none => []
  | some tags_col =>
    if tags_col = "" then []
    else
      match dictLookup row.cells tags_col with
      | none => []
      | some cell =>
        match cell with
        | none => []
        | some v => parse_tags_value v

/-- Result of the known-field step of `ExperimentsImporter.patch_existing`:
the payload and whether the body PATCH request was issued. -/
structure ExpPatchResult where
  payload : List (String × Json)
  body_patch_issued : Bool

/-- The attribute lookup `self._get_title` performed by
`ExperimentsImporter.patch_existing` (experiments_importer.py lines 99 and
128): no method `_get_title` exists on `ExperimentsImporter` or
`BaseImporter` (the base class defines `get_title`), so the lookup raises
`AttributeError`. -/
def exp_get_title_attr (imp : Importer) (row : Row) :
    Except PyError (Option String) :=
  let _ := imp
  let _ := row
  .error .attributeError

/-- Source function `ExperimentsImporter.patch_existing`
(src/src/services/importers/experiments_importer.py lines 94-121), known
fields step.  Its first guard evaluates `self._get_title(row)`, whose
attribute lookup raises `AttributeError`, so the function fails on every
invocation before any payload entry is added or any PATCH is sent (the
`.ok` branch below is unreachable and carries the same error). -/
def exp_patch_existing (imp : Importer) (row : Row) (category : Option String) :
    Except PyError ExpPatchResult :=
  let _ := category
  match exp_get_title_attr imp row with
  | .error e => .error e
  | .ok _ => .error .attributeError

/-- The lower-casing migration loop of `ResourcesImporter.patch_existing`
(lines 470-473): every key whose lower-casing differs is popped and
re-inserted under the lower-cased key. -/
def res_lower_migrate (ef : List (String × Json)) : List (String × Json) :=
  (ef.map (fun kv => kv.1)).foldl (fun m k =>
    let lk := pyLower k
    if lk ≠ k then
      match dictLookup m k with
      | some v => dictInsert (dictRemove m k) lk v
      | none => m
    else m) ef

/-- Result of `ResourcesImporter.patch_existing`. -/
structure ResPatchResult where
  payload : List (String × Json)
  patch_issued : Bool

/-- Source function `ResourcesImporter.patch_existing`
(src/src/services/importers/resources_importer.py lines 452-487), with
`existing` the fetched record object and the metadata object taken from its
decoded `metadata` entry (string metadata is JSON-decoded by the source; the
embedding covers the mapping case, with a falsy or undecodable value giving
an empty object).  The payload unconditionally carries `title`, `tags`,
`category`, `body` and the serialised metadata, and the PATCH is always
issued. -/
def res_patch_existing (existing : List (String × Json)) (title category body : String)
    (tags : List String) : ResPatchResult :=
  let raw_metadata := (dictLookup existing "metadata").getD Json.null
  let metadata := if pyTruthy raw_metadata then jsonObjEntries raw_metadata else []
  let metadata1 := withExtraFieldsKey metadata
  let ef := jsonObjEntries ((dictLookup metadata1 "extra_fields").getD (Json.obj []))
  let ef2 := res_lower_migrate ef
  let metadata2 := dictInsert metadata1 "extra_fields" (Json.obj ef2)
  { payload := [("title", Json.str title), ("tags", Json.arr (tags.map Json.str)),
      ("category", Json.str category), ("body", Json.str body),
      ("metadata", Json.str (renderJson (Json.obj metadata2)))]
    patch_issued := true }

/-- Result of the inner retry loop of `paged_fetch`: the page obtained (empty
when retries were exhausted), the final values of `attempt` and
`current_limit`, the `(limit, offset)` of every `get_page` call in order, the
backoff durations slept between attempts, and the next call index. -/
structure WindowResult (α : Type) where
  page : List α
  finalAttempt : Nat
  finalLimit : Nat
  calls : List (Nat × Nat)
  sleeps : List ℚ
  nextCall : Nat

/-- The inner `while True` retry loop of `paged_fetch`
(src/src/utils/common.py lines 78-88).  `getPage i limit offset` is the page
source, indexed by the 1-based call count `i`; `none` models a
timeout-class exception.  On a timeout with retries left the loop sleeps
`backoff (attempt+1)`, halves the limit (ceiling division) floored at
`minLimit`, and retries at the same offset; with none left it yields the
empty page.  `retriesLeft` stands for `max_retries - attempt`. -/
def fetch_window (getPage : Nat → Nat → Nat → Option (List α)) (minLimit : Nat)
    (backoff : Nat → ℚ) (offset : Nat) :
    Nat → Nat → Nat → Nat → WindowResult α
  | retriesLeft, attempt, limit, callIdx =>
    match getPage callIdx limit offset with
    | some page =>
      { page := page, finalAttempt := attempt, finalLimit := limit,
        calls := [(limit, offset)], sleeps := [], nextCall := callIdx + 1 }
    | none =>
      match retriesLeft with
      | 0 =>
        { page := [], finalAttempt := attempt, finalLimit := limit,
          calls := [(limit, offset)], sleeps := [], nextCall := callIdx + 1 }
      | r + 1 =>
        let w := fetch_window getPage minLimit backoff offset r (attempt + 1)
          (max minLimit ((limit + 1) / 2)) (callIdx + 1)
        { page := w.page
          finalAttempt := w.finalAttempt
          finalLimit := w.finalLimit
          calls := (limit, offset) :: w.calls
          sleeps := backoff (attempt + 1) :: w.sleeps
          nextCall := w.nextCall }

/-- Trace of a whole `paged_fetch` run: all `get_page` calls, all backoff
sleeps, and the items yielded. -/
structure FetchResult (α : Type) where
  calls : List (Nat × Nat)
  sleeps : List ℚ
  yielded : List α

/-- Source function `paged_fetch` (src/src/utils/common.py lines 58-107).
The outer loop advances the offset window by window; `fuel` bounds the
number of windows (the source loops until a short or exhausted page).  After
an exhausted retry budget the window is skipped and the offset advanced by
the last attempted limit; a successful page is yielded, and a page shorter
than the final limit terminates the fetch. -/
def paged_fetch (getPage : Nat → Nat → Nat → Option (List α))
    (pageSize maxRetries minLimit : Nat) (backoff : Nat → ℚ) :
    Nat → Nat → Nat → FetchResult α
  | 0, _, _ => { calls := [], sleeps := [], yielded := [] }
  | fuel + 1, offset, callIdx =>
    let w := fetch_window getPage minLimit backoff offset maxRetries 0 pageSize callIdx
    if w.page.isEmpty then
      if maxRetries ≤ w.finalAttempt then
        let rest := paged_fetch getPage pageSize maxRetries minLimit backoff fuel
          (offset + w.finalLimit) w.nextCall
        { calls := w.calls ++ rest.calls, sleeps := w.sleeps ++ rest.sleeps,
          yielded := rest.yielded }
      else { calls := w.calls, sleeps := w.sleeps, yielded := [] }
    else
      if w.page.length < w.finalLimit then
        { calls := w.calls, sleeps := w.sleeps, yielded := w.page }
      else
        let rest := paged_fetch getPage pageSize maxRetries minLimit backoff fuel
          (offset + w.finalLimit) w.nextCall
        { calls := w.calls ++ rest.calls, sleeps := w.sleeps ++ rest.sleeps,
          yielded := w.page ++ rest.yielded }

/-- The default backoff of `paged_fetch`: `lambda attempt: 1.5 * attempt`,
modelled over the rationals. -/
def default_backoff (attempt : Nat) : ℚ := 3 / 2 * attempt

example :
    (paged_fetch (fun i _ o => if i ≤ 2 then none else some [o]) 6 3 2
      default_backoff 5 0 1).calls = [(6, 0), (3, 0), (2, 0)] := by decide

/-- Claim C1 (the code contradicts the repository's own test
`test_coerce_select_field`): evaluating `_coerce_for_field` with options
`["A", "B"]`, multi-value enabled and raw `"a, B"` returns only the exact
match `["B"]`, because the case-insensitive pass runs only when no token
matches exactly — not per token as specified (the test expects
`["A", "B"]`).  The claim's homogeneous examples do hold: `"red, BLUE, red"`
against `["Red", "Blue"]` gives `["Red", "Blue"]`, and a single-valued
`"green"` gives `none`. -/
theorem coerce_for_field_c1_eval :
    coerce_for_field ⟨some "select", true, ["A", "B"]⟩ "a, B" = some (.l ["B"]) ∧
    coerce_for_field ⟨some "select", true, ["Red", "Blue"]⟩ "red, BLUE, red" =
      some (.l ["Red", "Blue"]) ∧
    coerce_for_field ⟨some "select", false, ["Red", "Blue"]⟩ "green" = none :=
  ⟨by decide, by decide, by decide⟩

/-- Claim C6, counterexample: the headers `"Category ID"` and `"category_id"`
do not canonicalize to the same key — `canonicalize` removes spaces but does
not insert underscores, so the first becomes `"categoryid"` while the second
keeps its underscore. -/
theorem canonicalize_c6_counterexample :
    canonicalize "Category ID" = "categoryid" ∧
    canonicalize "category_id" = "category_id" ∧
    canonicalize "Category ID" ≠ canonicalize "category_id" :=
  ⟨by decide, by decide, by decide⟩

/-- Claim C6, amended: `canonicalize` is idempotent; the headers
`"Category ID"` and `"category_id"` map to distinct canonical keys and are
both retained as separate columns; on a genuine canonical collision (for
example `"Category-ID"` against `"category_id"`) the column index retains the
first occurrence in input order. -/
theorem canonicalize_c6_amended :
    (∀ x : String, canonicalize (canonicalize x) = canonicalize x) ∧
    build_canon_map ["Category ID", "category_id"] =
      [("categoryid", "Category ID"), ("category_id", "category_id")] ∧
    build_canon_map ["Category-ID", "category_id"] = [("category_id", "Category-ID")] :=
  ⟨canonicalize_idem, by decide, by decide⟩

/-- Claim C7, counterexample: `_find_col_like` tests only whether the
canonicalised target is contained in a canonical key.  For the target
`"categoryidx"` over a single column `"Category ID"` the key `"categoryid"`
is contained in the target — the direction the claim says also matches — yet
the function returns `none`; and for target `"body"` over columns whose
canonical keys are `"bodytext"` then `"body"`, the containment hit on the
first key shadows the later exact match, contradicting exact-match-first. -/
theorem find_col_like_c7_counterexample :
    find_col_like ⟨[], [("categoryid", "Category ID")]⟩ "categoryidx" = none ∧
    pyInStr "categoryid" (canonicalize "categoryidx") = true ∧
    find_col_like ⟨[], [("bodytext", "Body Text"), ("body", "body")]⟩ "body" =
      some "Body Text" :=
  ⟨by decide, by decide, by decide⟩

/-- Claim C7, amended: `_find_col_like` performs a single pass in iteration
order returning the first original column whose canonical key contains the
canonicalised target (no exact-match priority, no key-in-target direction),
and returns `none` exactly when no canonical key contains the target. -/
theorem find_col_like_c7_amended :
    (∀ (imp : Importer) (target orig : String),
      find_col_like imp target = some orig →
        ∃ ck, (ck, orig) ∈ imp.cols_canon ∧ pyInStr (canonicalize target) ck = true) ∧
    (∀ (imp : Importer) (target : String),
      find_col_like imp target = none ↔
        ∀ ck orig, (ck, orig) ∈ imp.cols_canon →
          pyInStr (canonicalize target) ck = false) := by
  constructor
  · intro imp target orig h
    unfold find_col_like at h
    obtain ⟨kv, hfind, hsnd⟩ := Option.map_eq_some'.mp h
    refine ⟨kv.1, ?_, ?_⟩
    · have := List.mem_of_find?_eq_some hfind
      rw [← hsnd]
      simpa using this
    · simpa using List.find?_some hfind
  · intro imp target
    unfold find_col_like
    rw [Option.map_eq_none']
    rw [List.find?_eq_none]
    constructor
    · intro h ck orig hmem
      have := h (ck, orig) hmem
      simpa using this
    · intro h kv hmem
      have := h kv.1 kv.2 hmem
      simp [this]

/-- Witness for the amended C7 theorem at a concrete index. -/
theorem find_col_like_c7_witness :
    ∃ ck, (ck, "Body Text") ∈
        (Importer.mk [] [("bodytext", "Body Text"), ("body", "body")]).cols_canon ∧
      pyInStr (canonicalize "body") ck = true :=
  find_col_like_c7_amended.1 ⟨[], [("bodytext", "Body Text"), ("body", "body")]⟩
    "body" "Body Text" (by decide)

/-- Claim C8: the tags parser splits on exactly one delimiter, the first
found among `;`, `,`, `|` in that priority order, and keeps the whole string
as a single tag when none is present (parts are stripped and blanks
dropped); in particular `"a; b | c"` gives `["a", "b | c"]` and `"a,b,c"`
gives `["a", "b", "c"]`. -/
theorem get_tags_c8 :
    (∀ val : String, pyContainsChar val ';' = true →
      parse_tags_value val = ((pySplit val ';').map pyStrip).filter (fun p => p ≠ "")) ∧
    (∀ val : String, pyContainsChar val ';' = false → pyContainsChar val ',' = true →
      parse_tags_value val = ((pySplit val ',').map pyStrip).filter (fun p => p ≠ "")) ∧
    (∀ val : String, pyContainsChar val ';' = false → pyContainsChar val ',' = false →
      pyContainsChar val '|' = true →
      parse_tags_value val = ((pySplit val '|').map pyStrip).filter (fun p => p ≠ "")) ∧
    (∀ val : String, pyContainsChar val ';' = false → pyContainsChar val ',' = false →
      pyContainsChar val '|' = false →
      parse_tags_value val = [pyStrip val].filter (fun p => p ≠ "")) ∧
    get_tags ⟨[("tags", "tags")], []⟩ ⟨[("tags", some "a; b | c")]⟩ = ["a", "b | c"] ∧
    get_tags ⟨[("tags", "tags")], []⟩ ⟨[("tags", some "a,b,c")]⟩ = ["a", "b", "c"] := by
  refine ⟨?_, ?_, ?_, ?_, by decide, by decide⟩
  · intro val h
    simp [parse_tags_value, findFirstDelim, h]
  · intro val h1 h2
    simp [parse_tags_value, findFirstDelim, h1, h2]
  · intro val h1 h2 h3
    simp [parse_tags_value, findFirstDelim, h1, h2, h3]
  · intro val h1 h2 h3
    simp [parse_tags_value, findFirstDelim, h1, h2, h3]

/-- Witness for the C8 theorem at a concrete semicolon-delimited value. -/
theorem get_tags_c8_witness :
    parse_tags_value "a;b" = ((pySplit "a;b" ';').map pyStrip).filter (fun p => p ≠ "") :=
  get_tags_c8.1 "a;b" (by decide)

theorem dictLookup_nil (k : String) : dictLookup ([] : List (String × α)) k = none := rfl

theorem dictLookup_cons (k0 : String) (v0 : α) (t : List (String × α)) (k : String) :
    dictLookup ((k0, v0) :: t) k = if k0 = k then some v0 else dictLookup t k := by
  unfold dictLookup
  rw [List.find?_cons]
  by_cases h : k0 = k
  · simp [h]
  · simp [h]

theorem dictLookup_dictInsert (l : List (String × α)) (k c : String) (v : α) :
    dictLookup (dictInsert l k v) c = if k = c then some v else dictLookup l c := by
  induction l with
  | nil =>
    simp [dictInsert, dictLookup_cons, dictLookup_nil]
  | cons kv t ih =>
    obtain ⟨k0, v0⟩ := kv
    unfold dictInsert
    by_cases hk : k0 = k
    · subst hk
      rw [if_pos rfl, dictLookup_cons, dictLookup_cons]
      by_cases hc : k0 = c
      · simp [hc]
      · simp [hc]
    · rw [if_neg hk, dictLookup_cons, dictLookup_cons, ih]
      by_cases hc : k0 = c
      · subst hc
        have : k ≠ k0 := fun h => hk h.symm
        simp [this]
      · simp [hc]

theorem dictKeys_dictInsert_of_isSome (l : List (String × α)) (k : String) (v : α)
    (h : (dictLookup l k).isSome = true) : dictKeys (dictInsert l k v) = dictKeys l := by
  induction l with
  | nil => simp [dictLookup_nil] at h
  | cons kv t ih =>
    obtain ⟨k0, v0⟩ := kv
    rw [dictLookup_cons] at h
    unfold dictInsert
    by_cases hk : k0 = k
    · rw [if_pos hk]
      simp [dictKeys]
    · rw [if_neg hk]
      rw [if_neg hk] at h
      have hrec : dictKeys (dictInsert t k v) = dictKeys t := ih h
      simp only [dictKeys, List.map_cons]
      rw [show List.map (fun kv => kv.1) (dictInsert t k v) =
        List.map (fun kv => kv.1) t from hrec]

theorem mem_dictKeys_of_dictLookup_isSome (l : List (String × α)) (k : String)
    (h : (dictLookup l k).isSome = true) : k ∈ dictKeys l := by
  induction l with
  | nil => simp [dictLookup_nil] at h
  | cons kv t ih =>
    obtain ⟨k0, v0⟩ := kv
    rw [dictLookup_cons] at h
    by_cases hk : k0 = k
    · simp [dictKeys, hk]
    · rw [if_neg hk] at h
      simp [dictKeys] at ih ⊢
      exact Or.inr (ih h)

theorem dictLookup_isSome_of_mem_dictKeys (l : List (String × α)) (k : String)
    (h : k ∈ dictKeys l) : (dictLookup l k).isSome = true := by
  induction l with
  | nil => simp [dictKeys] at h
  | cons kv t ih =>
    obtain ⟨k0, v0⟩ := kv
    rw [dictLookup_cons]
    by_cases hk : k0 = k
    · simp [hk]
    · rw [if_neg hk]
      simp [dictKeys, hk] at h
      rcases h with h | h
      · exact absurd h.symm hk
      · exact ih (by simpa [dictKeys] using h)

/-- Values recorded by the canonical-key index always name existing
definition keys. -/
theorem defsByCanon_aux_sub (S : List String) :
    ∀ (rest : List (String × Json)) (m : List (String × String)),
      (∀ kv ∈ rest, kv.1 ∈ S) →
      (∀ c rk, dictLookup m c = some rk → rk ∈ S) →
      ∀ c rk, dictLookup (rest.foldl defsByCanonStep m) c = some rk → rk ∈ S := by
  intro rest
  induction rest with
  | nil => intro m _ hm c rk h; exact hm c rk h
  | cons kv t ih =>
    intro m hrest hm c rk h
    rw [List.foldl_cons] at h
    refine ih (defsByCanonStep m kv) (fun x hx => hrest x (List.mem_cons_of_mem kv hx))
      ?_ c rk h
    intro c2 rk2 h2
    unfold defsByCanonStep at h2
    by_cases hseen : (dictLookup m (canonicalize kv.1)).isSome = true
    · rw [if_pos hseen] at h2
      exact hm c2 rk2 h2
    · rw [if_neg hseen] at h2
      rw [dictLookup_dictInsert] at h2
      by_cases hc2 : canonicalize kv.1 = c2
      · rw [if_pos hc2] at h2
        cases h2
        exact hrest kv (List.mem_cons_self kv t)
      · rw [if_neg hc2] at h2
        exact hm c2 rk2 h2

theorem defsByCanon_val_mem (ef : List (String × Json)) (c rk : String)
    (h : dictLookup (defsByCanon ef) c = some rk) : rk ∈ dictKeys ef := by
  refine defsByCanon_aux_sub (dictKeys ef) ef [] ?_ ?_ c rk h
  · intro kv hkv
    exact List.mem_map_of_mem (fun x => x.1) hkv
  · intro c2 rk2 h2
    simp [dictLookup_nil] at h2

/-- The update loop of `post_extra_fields_from_row` never adds or removes an
extra-field key: every write targets a key recorded in the canonical index,
which names an existing definition. -/
theorem postExtra_fold_keys (defs : List (String × String)) (ef0 : List (String × Json))
    (hdefs : ∀ c rk, dictLookup defs c = some rk → rk ∈ dictKeys ef0) :
    ∀ (extras : List (String × String)) (ef : List (String × Json))
      (changed : List (String × Json)), dictKeys ef = dictKeys ef0 →
      dictKeys (extras.foldl (postExtraStep defs) (ef, changed)).1 = dictKeys ef0 := by
  intro extras
  induction extras with
  | nil => intro ef changed hkeys; simpa using hkeys
  | cons kv t ih =>
    intro ef changed hkeys
    rw [List.foldl_cons]
    have hstep : dictKeys (postExtraStep defs (ef, changed) kv).1 = dictKeys ef0 ∧
        ∃ ch2, postExtraStep defs (ef, changed) kv = ((postExtraStep defs (ef, changed) kv).1, ch2) := by
      unfold postExtraStep
      rcases hfound : dictLookup defs kv.1 with _ | real_key
      · exact ⟨hkeys, ⟨changed, rfl⟩⟩
      · have hmem : real_key ∈ dictKeys ef := by
          rw [hkeys]; exact hdefs kv.1 real_key hfound
        have hsome : (dictLookup ef real_key).isSome = true :=
          dictLookup_isSome_of_mem_dictKeys ef real_key hmem
        rcases hcoerce : coerce_for_field (parseFieldDef
            (match dictLookup ef real_key with
              | some (.obj entries) => entries
              | _ => [])) kv.2 with _ | coerced
        · simp only [hcoerce]
          exact ⟨hkeys, ⟨changed, rfl⟩⟩
        · simp only [hcoerce]
          rcases hslot : dictLookup ef real_key with _ | j
          · rw [hslot] at hsome; simp at hsome
          · cases j with
            | obj slotEntries =>
              simp only []
              constructor
              · rw [dictKeys_dictInsert_of_isSome ef real_key _ hsome]
                exact hkeys
              · exact ⟨_, rfl⟩
            | null =>
              simp only []
              exact ⟨by rw [dictKeys_dictInsert_of_isSome ef real_key _ hsome]; exact hkeys, ⟨_, rfl⟩⟩
            | bool b =>
              exact ⟨by rw [dictKeys_dictInsert_of_isSome ef real_key _ hsome]; exact hkeys, ⟨_, rfl⟩⟩
            | num n =>
              exact ⟨by rw [dictKeys_dictInsert_of_isSome ef real_key _ hsome]; exact hkeys, ⟨_, rfl⟩⟩
            | str s2 =>
              exact ⟨by rw [dictKeys_dictInsert_of_isSome ef real_key _ hsome]; exact hkeys, ⟨_, rfl⟩⟩
            | arr items =>
              exact ⟨by rw [dictKeys_dictInsert_of_isSome ef real_key _ hsome]; exact hkeys, ⟨_, rfl⟩⟩
    obtain ⟨hk2, ch2, heq⟩ := hstep
    rw [heq]
    exact ih _ ch2 hk2

/-- When no collected CSV key matches the canonical index, the update loop is
the identity. -/
theorem postExtra_fold_noop (defs : List (String × String)) :
    ∀ (extras : List (String × String)) (st : List (String × Json) × List (String × Json)),
      (∀ kv ∈ extras, dictLookup defs kv.1 = none) →
      extras.foldl (postExtraStep defs) st = st := by
  intro extras
  induction extras with
  | nil => intro st _; rfl
  | cons kv t ih =>
    intro st h
    rw [List.foldl_cons]
    have hstep : postExtraStep defs st kv = st := by
      unfold postExtraStep
      rw [h kv (List.mem_cons_self kv t)]
    rw [hstep]
    exact ih st (fun x hx => h x (List.mem_cons_of_mem kv hx))

/-- Claim C2, counterexample: a CSV column matching no existing definition is
skipped, not registered — the extra fields stay exactly as they were, no
entry appears under the column's name, and no PATCH is issued. -/
theorem post_extra_fields_c2_counterexample :
    (post_extra_fields_from_row
        [("extra_fields", Json.obj [("Color", Json.obj [("type", Json.str "text")])])]
        ⟨[("NewCol", some "v")]⟩ []).extra_fields =
      [("Color", Json.obj [("type", Json.str "text")])] ∧
    (post_extra_fields_from_row
        [("extra_fields", Json.obj [("Color", Json.obj [("type", Json.str "text")])])]
        ⟨[("NewCol", some "v")]⟩ []).patch = none :=
  ⟨rfl, rfl⟩

/-- Claim C2, amended: `post_extra_fields_from_row` never registers a
brand-new extra field — the key set of the record's extra-field definitions
is exactly preserved, so a non-excluded CSV column whose canonical name
matches no existing definition is skipped entirely. -/
theorem post_extra_fields_c2_amended (metadata0 : List (String × Json)) (row : Row)
    (known_columns : List String) :
    dictKeys (post_extra_fields_from_row metadata0 row known_columns).extra_fields =
      dictKeys (efEntriesOf metadata0) := by
  simp only [post_extra_fields_from_row]
  exact postExtra_fold_keys (defsByCanon (efEntriesOf metadata0)) (efEntriesOf metadata0)
    (fun c rk h => defsByCanon_val_mem (efEntriesOf metadata0) c rk h)
    (collect_csv_extra_fields row known_columns) (efEntriesOf metadata0) [] rfl

/-- A successful pass over the extra-field list can only return the mapping
it started from: recording any titled definition evaluates the undefined
`canonicalize` and raises `NameError` first. -/
theorem fetch_extra_fields_fold_ok :
    ∀ (fields : List Json) (m r : List (String × List (String × Json))),
      fetch_extra_fields_fold fields m = .ok r → r = m := by
  intro fields
  induction fields with
  | nil =>
    intro m r h
    simp only [fetch_extra_fields_fold] at h
    cases h
    rfl
  | cons f t ih =>
    intro m r h
    cases f with
    | obj fe =>
      rcases htitle : ((truthyGet fe "title").orElse (fun _ =>
          (truthyGet fe "slug").orElse (fun _ => truthyGet fe "name"))) with _ | tj
      · simp only [fetch_extra_fields_fold, htitle] at h
        exact ih m r h
      · simp only [fetch_extra_fields_fold, htitle, base_canonicalize] at h
        cases h
    | null =>
      simp only [fetch_extra_fields_fold] at h
      exact ih m r h
    | bool b =>
      simp only [fetch_extra_fields_fold] at h
      exact ih m r h
    | num n =>
      simp only [fetch_extra_fields_fold] at h
      exact ih m r h
    | str s2 =>
      simp only [fetch_extra_fields_fold] at h
      exact ih m r h
    | arr items =>
      simp only [fetch_extra_fields_fold] at h
      exact ih m r h

/-- `fetch_extra_fields_mapping` can only return the empty mapping without
raising. -/
theorem fetch_extra_fields_mapping_ok (existing : List (String × Json))
    (r : List (String × List (String × Json)))
    (h : fetch_extra_fields_mapping existing = .ok r) : r = [] := by
  simp only [fetch_extra_fields_mapping] at h
  rcases hj : (dictLookup (jsonObjEntries ((dictLookup existing "metadata_decoded").getD
      (Json.obj []))) "extra_fields").getD (Json.arr []) with _ | b | n | s2 | items | entries <;>
    rw [hj] at h
  · cases h; rfl
  · cases h; rfl
  · cases h; rfl
  · cases h; rfl
  · exact fetch_extra_fields_fold_ok items [] r h
  · cases h; rfl

/-- The base-importer extra-fields update never reaches its PATCH line: the
record is empty, it has no extra-field definitions (both early returns), or
`NameError` is raised on the undefined module-level `canonicalize` first. -/
theorem update_never_patches (existing : List (String × Json)) (row : Row)
    (kc : List String) (p : List (String × Json)) :
    update_extra_fields_from_row existing row kc ≠ Except.ok (some p) := by
  intro h
  unfold update_extra_fields_from_row at h
  by_cases he : existing.isEmpty
  · rw [if_pos he] at h
    simp at h
  · rw [if_neg he] at h
    rcases hf : fetch_extra_fields_mapping existing with e | em <;> rw [hf] at h
    · cases h
    · have hem : em = [] := fetch_extra_fields_mapping_ok existing em hf
      subst hem
      simp at h

/-- Claim C3: when no non-excluded CSV column matches any existing
extra-field definition, no PATCH is issued.  On the create path the change
set stays empty and the function returns before the PATCH; the base-importer
patch path never issues a PATCH under any circumstances (it returns early on
an empty record or a record without extra-field definitions, and otherwise
raises `NameError` on the undefined name `canonicalize` before reaching the
PATCH), so in particular it issues none when nothing matches. -/
theorem extra_fields_patch_c3 :
    (∀ (metadata0 : List (String × Json)) (row : Row) (kc : List String),
      (∀ kv ∈ collect_csv_extra_fields row kc,
        dictLookup (defsByCanon (efEntriesOf metadata0)) kv.1 = none) →
      (post_extra_fields_from_row metadata0 row kc).patch = none) ∧
    (∀ (existing : List (String × Json)) (row : Row) (kc : List String)
      (p : List (String × Json)),
      update_extra_fields_from_row existing row kc ≠ Except.ok (some p)) := by
  constructor
  · intro metadata0 row kc h
    simp only [post_extra_fields_from_row]
    rw [postExtra_fold_noop (defsByCanon (efEntriesOf metadata0))
      (collect_csv_extra_fields row kc) (efEntriesOf metadata0, []) h]
    rfl
  · exact fun existing row kc p => update_never_patches existing row kc p

/-- Witness for the C3 theorem: a row whose only column matches no
definition produces no PATCH on the create path. -/
theorem extra_fields_patch_c3_witness :
    (post_extra_fields_from_row
        [("extra_fields", Json.obj [("Color", Json.obj [("type", Json.str "text")])])]
        ⟨[("Other", some "x")]⟩ []).patch = none :=
  extra_fields_patch_c3.1
    [("extra_fields", Json.obj [("Color", Json.obj [("type", Json.str "text")])])]
    ⟨[("Other", some "x")]⟩ [] (by decide)

/-- Claim C5: whenever the extra-fields update issues a PATCH, its
`metadata` entry is the full mutated metadata serialised as a JSON string.
The create path builds exactly that payload; the base-importer patch path —
whose source text would send a nested object — never issues a PATCH at all
(early return or `NameError` on the undefined `canonicalize`), so every
PATCH the extra-fields update actually issues carries the string form. -/
theorem metadata_patch_c5 :
    (∀ (metadata0 : List (String × Json)) (row : Row) (kc : List String),
      (post_extra_fields_from_row metadata0 row kc).patch.isSome = true →
      (post_extra_fields_from_row metadata0 row kc).patch =
        some [("metadata", Json.str (renderJson (Json.obj
          (post_extra_fields_from_row metadata0 row kc).metadata)))]) ∧
    (∀ (existing : List (String × Json)) (row : Row) (kc : List String)
      (p : List (String × Json)),
      update_extra_fields_from_row existing row kc ≠ Except.ok (some p)) := by
  constructor
  · intro metadata0 row kc h
    simp only [post_extra_fields_from_row] at h ⊢
    by_cases hch : (List.foldl (postExtraStep (defsByCanon (efEntriesOf metadata0)))
        (efEntriesOf metadata0, []) (collect_csv_extra_fields row kc)).2.isEmpty = true
    · rw [if_pos hch] at h
      simp at h
    · rw [if_neg hch] at h ⊢
  · exact fun existing row kc p => update_never_patches existing row kc p

/-- Witness for the C5 theorem: a matching text field produces a PATCH whose
payload is the serialised mutated metadata. -/
theorem metadata_patch_c5_witness :
    (post_extra_fields_from_row
        [("extra_fields", Json.obj [("Color", Json.obj [("type", Json.str "text")])])]
        ⟨[("Color", some "red")]⟩ []).patch =
      some [("metadata", Json.str (renderJson (Json.obj
        (post_extra_fields_from_row
          [("extra_fields", Json.obj [("Color", Json.obj [("type", Json.str "text")])])]
          ⟨[("Color", some "red")]⟩ []).metadata)))] :=
  metadata_patch_c5.1
    [("extra_fields", Json.obj [("Color", Json.obj [("type", Json.str "text")])])]
    ⟨[("Color", some "red")]⟩ [] rfl

/-- The case-insensitive collection pass adds nothing when no token has a
case-insensitive match. -/
theorem ci_fold_nil (os : List String) :
    ∀ (l : List String), (∀ v ∈ l, lowerLookup os v = none) →
      ∀ acc : List String, (l.foldl (fun acc v =>
        match lowerLookup os v with
        | some m => if acc.contains m then acc else acc ++ [m]
        | none => acc) acc) = acc := by
  intro l
  induction l with
  | nil => intro _ acc; rfl
  | cons v t ih =>
    intro h acc
    rw [List.foldl_cons]
    rw [h v (List.mem_cons_self v t)]
    exact ih (fun x hx => h x (List.mem_cons_of_mem v hx)) acc

/-- Claim C10: a multi-valued select whose raw value is non-empty but whose
tokens match no option (exactly or case-insensitively) coerces to the empty
list, not `none`; the create-path update therefore does not skip such a
field — it overwrites the value with the empty list, counts it as changed,
and issues a PATCH (shown on a concrete two-option field). -/
theorem coerce_multi_c10 :
    (∀ (defn : FieldDef) (raw : String),
      defn.ftype = some "select" → defn.allow_multi_values = true → raw ≠ "" →
      (∀ v ∈ split_multi raw,
        (dedupFirst (defn.options.map pyStrip)).contains v = false ∧
        lowerLookup (dedupFirst (defn.options.map pyStrip)) v = none) →
      coerce_for_field defn raw = some (.l [])) ∧
    (post_extra_fields_from_row
        [("extra_fields", Json.obj [("Colors", Json.obj [("type", Json.str "select"),
          ("allow_multi_values", Json.bool true),
          ("options", Json.arr [Json.str "Red", Json.str "Blue"])])])]
        ⟨[("Colors", some "green, yellow")]⟩ []).changed =
      [("Colors", Json.arr [])] ∧
    (post_extra_fields_from_row
        [("extra_fields", Json.obj [("Colors", Json.obj [("type", Json.str "select"),
          ("allow_multi_values", Json.bool true),
          ("options", Json.arr [Json.str "Red", Json.str "Blue"])])])]
        ⟨[("Colors", some "green, yellow")]⟩ []).patch.isSome = true ∧
    dictLookup (post_extra_fields_from_row
        [("extra_fields", Json.obj [("Colors", Json.obj [("type", Json.str "select"),
          ("allow_multi_values", Json.bool true),
          ("options", Json.arr [Json.str "Red", Json.str "Blue"])])])]
        ⟨[("Colors", some "green, yellow")]⟩ []).extra_fields "Colors" =
      some (Json.obj [("type", Json.str "select"), ("allow_multi_values", Json.bool true),
        ("options", Json.arr [Json.str "Red", Json.str "Blue"]),
        ("value", Json.arr [])]) := by
  refine ⟨?_, rfl, rfl, rfl⟩
  intro defn raw h1 h2 _ hno
  unfold coerce_for_field
  rw [if_pos h1, if_pos h2]
  have hpicked : (split_multi raw).filter
      (fun v => (dedupFirst (defn.options.map pyStrip)).contains v) = [] := by
    rw [List.filter_eq_nil_iff]
    intro v hv
    simpa using (hno v hv).1
  rw [hpicked]
  by_cases hvals : (split_multi raw).isEmpty = true
  · simp only [List.isEmpty_nil, hvals, Bool.not_true, Bool.and_false, if_neg]
    simp
  · simp only [List.isEmpty_nil, hvals]
    rw [ci_fold_nil (dedupFirst (defn.options.map pyStrip)) (split_multi raw)
      (fun v hv => (hno v hv).2) []]
    simp

/-- Witness for the C10 theorem at a concrete multi-select. -/
theorem coerce_multi_c10_witness :
    coerce_for_field ⟨some "select", true, ["Red", "Blue"]⟩ "green, yellow" =
      some (.l []) :=
  coerce_multi_c10.1 ⟨some "select", true, ["Red", "Blue"]⟩ "green, yellow" rfl rfl
    (by decide) (by decide)

/-- Claim C4, amended: `ResourcesImporter.patch_existing` unconditionally
sends all of title, tags, category, body and the serialised metadata — empty
values included — and always issues the PATCH;
`ExperimentsImporter.patch_existing` raises `AttributeError` on the
undefined `self._get_title` before building any payload, so it sends no
known-fields PATCH at all (in particular none with an empty payload). -/
theorem patch_payload_c4_amended :
    (∀ (existing : List (String × Json)) (t c b : String) (tg : List String),
      dictKeys (res_patch_existing existing t c b tg).payload =
        ["title", "tags", "category", "body", "metadata"] ∧
      (res_patch_existing existing t c b tg).patch_issued = true) ∧
    (∀ (imp : Importer) (row : Row) (category : Option String),
      exp_patch_existing imp row category = Except.error PyError.attributeError) := by
  constructor
  · intro existing t c b tg
    exact ⟨rfl, rfl⟩
  · intro imp row category
    rfl

/-- Claim C4, counterexample: the resources patch path puts every known field
into the payload even when all of them are empty, and still issues the PATCH
— empty fields are not omitted. -/
theorem res_patch_c4_counterexample :
    (res_patch_existing [] "" "" "" []).patch_issued = true ∧
    dictLookup (res_patch_existing [] "" "" "" []).payload "title" =
      some (Json.str "") ∧
    dictLookup (res_patch_existing [] "" "" "" []).payload "body" =
      some (Json.str "") ∧
    dictLookup (res_patch_existing [] "" "" "" []).payload "category" =
      some (Json.str "") ∧
    dictLookup (res_patch_existing [] "" "" "" []).payload "tags" =
      some (Json.arr []) :=
  ⟨rfl, rfl, rfl, rfl, rfl⟩

/-- Claim C9: with a page source that raises a timeout on its first two calls
and succeeds on the third with a short page, `paged_fetch` at
`page_size = 6`, `min_limit = 2` and any `max_retries ≥ 2` makes exactly
three `get_page` attempts, all at the same offset, with limits 6 then 3 then
2 (the limit halves on each retry, floored at the minimum), sleeping
`backoff 1` and `backoff 2` between the attempts. -/
theorem paged_fetch_c9 {α : Type} (getPage : Nat → Nat → Nat → Option (List α))
    (p : List α) (maxRetries fuel : Nat) (backoff : Nat → ℚ)
    (hmr : 2 ≤ maxRetries)
    (h1 : ∀ l o, getPage 1 l o = none)
    (h2 : ∀ l o, getPage 2 l o = none)
    (h3 : getPage 3 2 0 = some p)
    (hp : p.length = 1) :
    paged_fetch getPage 6 maxRetries 2 backoff (fuel + 1) 0 1 =
      { calls := [(6, 0), (3, 0), (2, 0)], sleeps := [backoff 1, backoff 2],
        yielded := p } := by
  obtain ⟨k, rfl⟩ : ∃ k, maxRetries = k + 2 := ⟨maxRetries - 2, by omega⟩
  obtain ⟨a, rfl⟩ := List.length_eq_one.mp hp
  have hw : fetch_window getPage 2 backoff 0 (k + 2) 0 6 1 =
      { page := [a], finalAttempt := 2, finalLimit := 2,
        calls := [(6, 0), (3, 0), (2, 0)], sleeps := [backoff 1, backoff 2],
        nextCall := 4 } := by
    have m1 : (2 : Nat) ⊔ ((6 + 1) / 2) = 3 := by decide
    have m2 : (2 : Nat) ⊔ ((3 + 1) / 2) = 2 := by decide
    have h4 : fetch_window getPage 2 backoff 0 k 2 2 3 =
        { page := [a], finalAttempt := 2, finalLimit := 2, calls := [(2, 0)],
          sleeps := [], nextCall := 4 } := by
      cases k with
      | zero => simp [fetch_window, h3]
      | succ r => simp [fetch_window, h3]
    simp [fetch_window, h1, h2, m1, m2, h4]
  rw [paged_fetch, hw]
  simp

/-- A concrete page source for the C9 witness: times out on the first two
calls, then returns a one-item page. -/
def c9_getPage : Nat → Nat → Nat → Option (List Nat) :=
  fun i _ o => if i ≤ 2 then none else some [o]

/-- Witness for the C9 theorem at `max_retries = 2` and the default
backoff. -/
theorem paged_fetch_c9_witness :
    paged_fetch c9_getPage 6 2 2 default_backoff 1 0 1 =
      { calls := [(6, 0), (3, 0), (2, 0)],
        sleeps := [default_backoff 1, default_backoff 2], yielded := [0] } :=
  paged_fetch_c9 c9_getPage [0] 2 0 default_backoff (by decide)
    (fun _ _ => rfl) (fun _ _ => rfl) rfl rfl

end ElapiPlugins
